import Mathlib

/-!
Shallow embedding of the doc2confluence conversion core: the forward
converter (`Converter` in src/converter.ts), its CSV table builder and
inline content resolver, and the reverse storage-format serializer
(`ConfluenceClient.convertADFToStorage` / `processADFNodes` /
`escapeHtml` in src/confluence.ts).  JS strings are modelled as Lean
`String` (a list of characters); JS `undefined`/absent optional fields as
`Option`; JS string falsiness (`x || d`) as `jsOr`; thrown JS errors as
`Except.error`.  External collaborators (the marked tokenizer, the
csv-parse stream parser, ajv and the fetched JSON schema, the file
system) are not code of this repository: they enter as explicit function
parameters or oracle records, and every theorem quantifies over them.
-/

/-- Concatenation of a list of strings (JS `+=` accumulation in a loop). -/
def strConcat : List String → String
  | [] => ""
  | s :: rest => s ++ strConcat rest

/-- JS truthiness-based default for strings: `x || d` yields `d` when `x` is
`undefined` or the empty string. -/
def jsOr (o : Option String) (d : String) : String :=
  match o with
  | some s => if s = "" then d else s
  | none => d

/-- JS `String.prototype.trim()` (whitespace at both ends removed; the model
restricts JS whitespace to `Char.isWhitespace`). -/
def jsTrim (s : String) : String :=
  ⟨((s.data.dropWhile Char.isWhitespace).reverse.dropWhile Char.isWhitespace).reverse⟩

/-- `pre` is a prefix of `s` (JS `s.startsWith(pre)`). -/
def hasPre (pre s : String) : Bool :=
  pre.data.isPrefixOf s.data

/-- `suf` is a suffix of `s` (JS `s.endsWith(suf)`). -/
def hasSuf (suf s : String) : Bool :=
  suf.data.isSuffixOf s.data

/-- One character of `ConfluenceClient.escapeHtml`.  The source applies five
sequential global replaces (`&` first, then `<`, `>`, `"`, `'`); since no
replacement string contains a character that a later pass replaces, that is
the same as this single character-wise map. -/
def escapeChar (c : Char) : String :=
  if c = '&' then "&amp;"
  else if c = '<' then "&lt;"
  else if c = '>' then "&gt;"
  else if c = '"' then "&quot;"
  else if c = '\x27' then "&#039;"
  else ⟨[c]⟩

/-- `ConfluenceClient.escapeHtml`: HTML-escape `& < > " '` in text content. -/
def escapeHtml (s : String) : String :=
  strConcat (s.data.map escapeChar)

/-- A JS value sitting in an ADF `parameters` map.  The serializer renders it
with a template literal, so an object prints as `[object Object]`. -/
inductive JsVal where
  | str (s : String)
  | obj (entries : List (String × JsVal))

/-- JS template-literal stringification of a `JsVal`. -/
def JsVal.toTemplateString : JsVal → String
  | .str s => s
  | .obj _ => "[object Object]"

/-- A mark on a text node (`{type, attrs}` in the source).  The `attrs`
fields read anywhere in the code are `href` (link), `color` (textColor),
`type` (subsup, here `stype`) and `state` (action). -/
structure Mark where
  type : String
  href : Option String := none
  color : Option String := none
  stype : Option String := none
  state : Option String := none

/-- The `attrs` bag of an ADF node: the open JS map restricted to the keys
the embedded code reads or writes.  The JS `attrs.type` key (used on media
nodes) is `atype` here. -/
structure Attrs where
  level : Option Nat := none
  language : Option String := none
  panelType : Option String := none
  colspan : Option Nat := none
  rowspan : Option Nat := none
  background : Option String := none
  state : Option String := none
  localId : Option String := none
  atype : Option String := none
  url : Option String := none
  alt : Option String := none
  filename : Option String := none
  layout : Option String := none
  id : Option String := none
  text : Option String := none
  accessLevel : Option String := none
  color : Option String := none
  extensionType : Option String := none
  extensionKey : Option String := none
  parameters : Option (List (String × JsVal)) := none

/-- An ADF node (`ADFEntity` in the source): a `type` discriminant, an
`attrs` bag, optional `content` children, and, for text leaves, optional
`text` and `marks`; `version` appears on `doc` roots. -/
inductive ADFEntity where
  | mk (type : String) (attrs : Attrs) (content : Option (List ADFEntity))
       (text : Option String) (marks : Option (List Mark)) (version : Option Nat)

def ADFEntity.typeOf : ADFEntity → String
  | .mk t _ _ _ _ _ => t

def ADFEntity.attrsOf : ADFEntity → Attrs
  | .mk _ a _ _ _ _ => a

def ADFEntity.contentOf : ADFEntity → Option (List ADFEntity)
  | .mk _ _ c _ _ _ => c

def ADFEntity.textOf : ADFEntity → Option String
  | .mk _ _ _ txt _ _ => txt

def ADFEntity.marksOf : ADFEntity → Option (List Mark)
  | .mk _ _ _ _ mks _ => mks

/-- Child `i` of a node (`node.content[i]`, absent content giving nothing). -/
def childAt (n : ADFEntity) (i : Nat) : Option ADFEntity :=
  (n.contentOf.getD []).get? i

/-- One step of the serializer's mark loop (`processADFNodes`, `text` case):
wrap the accumulated markup in the tag of one mark; mark types outside the
switch leave the text unchanged. -/
def applyMark (t : String) (m : Mark) : String :=
  if m.type = "strong" then "<strong>" ++ t ++ "</strong>"
  else if m.type = "em" then "<em>" ++ t ++ "</em>"
  else if m.type = "code" then "<code>" ++ t ++ "</code>"
  else if m.type = "link" then "<a href=\"" ++ jsOr m.href "#" ++ "\">" ++ t ++ "</a>"
  else if m.type = "strike" then "<s>" ++ t ++ "</s>"
  else if m.type = "underline" then "<u>" ++ t ++ "</u>"
  else if m.type = "textColor" then
    match m.color with
    | some col => if col = "" then t else "<span style=\"color:" ++ col ++ "\">" ++ t ++ "</span>"
    | none => t
  else if m.type = "subsup" then
    if m.stype = some "sub" then "<sub>" ++ t ++ "</sub>" else "<sup>" ++ t ++ "</sup>"
  else t

/-- The serializer's whole mark loop: `text` starts as the escaped leaf text
and each declared mark in order wraps the accumulated string. -/
def applyMarks (base : String) (ms : List Mark) : String :=
  ms.foldl applyMark base

/-- Heading level with JS `|| 1` falsiness (level 0 falls back to 1). -/
def levelOrOne (a : Attrs) : Nat :=
  match a.level with
  | some l => if l = 0 then 1 else l
  | none => 1

/-- JS `attrs?.colspan ? ` colspan="…"` : ''` (0 is falsy). -/
def spanAttr (name : String) (o : Option Nat) : String :=
  match o with
  | some n => if n = 0 then "" else " " ++ name ++ "=\"" ++ toString n ++ "\""
  | none => ""

mutual

/-- `ConfluenceClient.processADFNodes`: walk a list of ADF nodes and emit
Confluence storage markup, dispatching on each node's `type`. -/
def processADFNodes : List ADFEntity → String
  | [] => ""
  | node :: rest => processNode node ++ processADFNodes rest

/-- One iteration of the `processADFNodes` loop: the `switch (node.type)`. -/
def processNode : ADFEntity → String
  | .mk t a c txt mks _ =>
    if t = "paragraph" then "<p>" ++ processOpt c ++ "</p>"
    else if t = "text" then applyMarks (escapeHtml (txt.getD "")) (mks.getD [])
    else if t = "heading" then
      "<h" ++ toString (levelOrOne a) ++ ">" ++ processOpt c ++ "</h" ++ toString (levelOrOne a) ++ ">"
    else if t = "bulletList" then "<ul>" ++ processOpt c ++ "</ul>"
    else if t = "orderedList" then "<ol>" ++ processOpt c ++ "</ol>"
    else if t = "listItem" then "<li>" ++ processOpt c ++ "</li>"
    else if t = "codeBlock" then
      "<ac:structured-macro ac:name=\"code\">"
        ++ (if a.language.getD "" = "" then ""
            else "<ac:parameter ac:name=\"language\">" ++ a.language.getD "" ++ "</ac:parameter>")
        ++ "<ac:plain-text-body><![CDATA[" ++ processOpt c
        ++ "]]></ac:plain-text-body></ac:structured-macro>"
    else if t = "blockquote" then "<blockquote>" ++ processOpt c ++ "</blockquote>"
    else if t = "panel" then
      "<ac:structured-macro ac:name=\"info\">"
        ++ (if jsOr a.panelType "info" = "info" then ""
            else "<ac:parameter ac:name=\"type\">" ++ jsOr a.panelType "info" ++ "</ac:parameter>")
        ++ "<ac:rich-text-body>" ++ processOpt c ++ "</ac:rich-text-body></ac:structured-macro>"
    else if t = "mediaSingle" then processOpt c
    else if t = "media" then
      if a.atype = some "file" then
        "<ac:image><ri:attachment ri:filename=\"" ++ a.filename.getD "" ++ "\" /></ac:image>"
      else if a.atype = some "external" then
        "<ac:image><ri:url ri:value=\"" ++ (a.url.getD "undefined") ++ "\" /></ac:image>"
      else ""
    else if t = "table" then "<table><tbody>" ++ processOpt c ++ "</tbody></table>"
    else if t = "tableRow" then "<tr>" ++ processOpt c ++ "</tr>"
    else if t = "tableCell" then
      "<td" ++ spanAttr "colspan" a.colspan ++ spanAttr "rowspan" a.rowspan ++ ">"
        ++ processOpt c ++ "</td>"
    else if t = "tableHeader" then
      "<th" ++ spanAttr "colspan" a.colspan ++ spanAttr "rowspan" a.rowspan ++ ">"
        ++ processOpt c ++ "</th>"
    else if t = "hardBreak" then "<br />"
    else if t = "rule" then "<hr />"
    else if t = "taskList" then
      "<ac:structured-macro ac:name=\"tasklist\"><ac:parameter ac:name=\"title\">Task List</ac:parameter>"
        ++ "<ac:rich-text-body>" ++ processOpt c ++ "</ac:rich-text-body></ac:structured-macro>"
    else if t = "taskItem" then
      "<ac:task><ac:task-status>" ++ (if a.state = some "DONE" then "complete" else "incomplete")
        ++ "</ac:task-status><ac:task-body>" ++ processOpt c ++ "</ac:task-body></ac:task>"
    else if t = "extension" then
      if a.extensionType = some "com.atlassian.confluence.macro.core" then
        "<ac:structured-macro ac:name=\"" ++ jsOr a.extensionKey "info" ++ "\">"
          ++ (match a.parameters with
              | some ps => strConcat (ps.map (fun kv =>
                  "<ac:parameter ac:name=\"" ++ kv.1 ++ "\">" ++ kv.2.toTemplateString
                    ++ "</ac:parameter>"))
              | none => "")
          ++ (match c with
              | some l => "<ac:rich-text-body>" ++ processADFNodes l ++ "</ac:rich-text-body>"
              | none => "")
          ++ "</ac:structured-macro>"
      else ""
    else processOpt c

/-- JS `this.processADFNodes(node.content || [])`. -/
def processOpt : Option (List ADFEntity) → String
  | none => ""
  | some l => processADFNodes l

end

/-- `ConfluenceClient.convertADFToStorage`: reject anything that is not a
`doc` root carrying a `content` array with a fixed placeholder string,
otherwise serialize the children. -/
def convertADFToStorage (adf : ADFEntity) : String :=
  if adf.typeOf != "doc" || (adf.contentOf).isNone then
    "<p>Invalid ADF document structure</p>"
  else
    processADFNodes ((adf.contentOf).getD [])

/-- The conversion options of `Converter` (`ConversionOptions` in the
source), restricted to the flags the embedded code reads; a JS `undefined`
flag is falsy, hence the `false` defaults. -/
structure ConversionOptions where
  parseMentions : Bool := false
  parseInlineCards : Bool := false
  useOfficialSchema : Bool := false
  useMarkdownMacro : Bool := false

/-- `Converter.createMarkdownMacroADF`: a `doc` whose sole child is a
`markdown`-macro extension node holding the trimmed source verbatim. -/
def createMarkdownMacroADF (markdown : String) : ADFEntity :=
  .mk "doc" {} (some [
    .mk "extension"
      { extensionType := some "com.atlassian.confluence.macro.core",
        extensionKey := some "markdown",
        parameters := some [("macroParams", JsVal.obj [])] }
      (some [.mk "text" {} none (some (jsTrim markdown)) none none])
      none none none
  ]) none none (some 1)

/-- Oracle for the external collaborators of `Converter.validateADF`'s
official-schema branch: whether `getADFSchema` produced a schema (it
catches its own download/cache errors and returns `null` on failure),
whether `ajv.compile` threw, and the verdict and formatted error list of
the compiled `validate` function. -/
structure SchemaOracle where
  schemaLoaded : Bool
  compileFail : Option String
  ajvValid : Bool
  ajvErrors : List String

/-- The body of the `try` block in `Converter.validateADF`'s official-schema
branch: skip silently when no schema is available, rethrow a compile error,
and throw the joined ajv messages when validation fails. -/
def officialAttempt (o : SchemaOracle) : Except String Unit :=
  if o.schemaLoaded then
    match o.compileFail with
    | some e => .error e
    | none =>
      if o.ajvValid then .ok ()
      else .error ("ADF Schema validation failed: " ++ String.intercalate ", " o.ajvErrors)
  else .ok ()

/-- `Converter.validateADF`: the local root-type invariant throws; the
official-schema branch catches every error of its own attempt, downgrades
it to a `console.warn` (returned here as the list of logged warnings), and
the function then returns `true`. -/
def validateADF (adf : ADFEntity) (useOfficialSchema : Bool) (o : SchemaOracle) :
    Except String (Bool × List String) :=
  if adf.typeOf != "doc" then
    .error "Invalid ADF: Document must have type \"doc\""
  else if useOfficialSchema then
    match officialAttempt o with
    | .ok _ => .ok (true, [])
    | .error msg => .ok (true, ["Official schema validation failed: " ++ msg])
  else .ok (true, [])

/-- The document literal built at the end of `Converter.convertToADF`:
`{type: 'doc', version: 1, content}`. -/
def mkDocADF (content : List ADFEntity) : ADFEntity :=
  .mk "doc" {} (some content) none none (some 1)

/-- `Converter.convertToADF`.  `buildNodes` stands for the external marked
tokenizer composed with the per-token `tokenToADFNode` loop (tokenization
plus I/O-bound node building); the macro path returns before it is ever
consulted.  The built document is validated and then returned; a thrown
validation error propagates, so an `Except.error` result carries no
document at all. -/
def convertToADF (buildNodes : String → ConversionOptions → List ADFEntity)
    (markdown : String) (options : ConversionOptions) (o : SchemaOracle) :
    Except String ADFEntity :=
  if options.useMarkdownMacro then .ok (createMarkdownMacroADF markdown)
  else
    let adf := mkDocADF (buildNodes markdown options)
    match validateADF adf options.useOfficialSchema o with
    | .error e => .error e
    | .ok _ => .ok adf

/-- `CsvOptions` of the source: delimiter, header presence, empty-line
handling. -/
structure CsvOptions where
  delimiter : Option String := none
  hasHeader : Option Bool := none
  skipEmptyLines : Option Bool := none

/-- Outcome of the external csv-parse stream: either the collected records
(each an ordered key/value list: header-keyed objects under `columns: true`,
index-keyed arrays otherwise) or the parser's `error` event message. -/
inductive CsvOutcome where
  | records (rs : List (List (String × String)))
  | failure (msg : String)

/-- A `tableHeader` cell as `Converter.parseCsvToTable` builds it. -/
def csvHeaderCell (t : String) : ADFEntity :=
  .mk "tableHeader" { colspan := some 1, rowspan := some 1 }
    (some [.mk "text" {} none (some t) none none]) none none none

/-- A `tableCell` as `Converter.parseCsvToTable` builds it. -/
def csvDataCell (t : String) : ADFEntity :=
  .mk "tableCell" { colspan := some 1, rowspan := some 1 }
    (some [.mk "text" {} none (some t) none none]) none none none

/-- `Converter.parseCsvToTable`: empty or whitespace-only input resolves to
an empty table before the parser runs; otherwise the parser's records build
a header row from the first record's keys plus one data row per record, and
a parser `error` event resolves (never rejects) with the two-row diagnostic
table. -/
def parseCsvToTable (content : String) (options : CsvOptions) (outcome : CsvOutcome) :
    ADFEntity :=
  if jsTrim content = "" then .mk "table" {} (some []) none none none
  else
    match outcome with
    | .records [] => .mk "table" {} (some []) none none none
    | .records (r0 :: rest) =>
        .mk "table" {} (some (
          (.mk "tableRow" {} (some ((r0.map Prod.fst).map csvHeaderCell)) none none none) ::
          (r0 :: rest).map (fun r =>
            ADFEntity.mk "tableRow" {} (some ((r.map Prod.snd).map csvDataCell)) none none none)))
          none none none
    | .failure msg =>
        .mk "table" {} (some [
          .mk "tableRow" {} (some [csvHeaderCell "Error"]) none none none,
          .mk "tableRow" {} (some [csvDataCell ("Could not parse CSV: " ++ msg)]) none none none])
          none none none

/-- A plain text leaf as the resolver pushes it: `{type: 'text', text: part}`. -/
def mkText (p : String) : ADFEntity :=
  .mk "text" {} none (some p) none none

mutual

/-- JS `text.split(/(\s+)/)` alternates (possibly empty) non-whitespace
tokens with the captured whitespace runs; `splitTok` scans while inside a
token (`cur` holds its characters reversed). -/
def splitTok (cur : List Char) : List Char → List (List Char)
  | [] => [cur.reverse]
  | c :: rest =>
    if c.isWhitespace then cur.reverse :: splitWs [c] rest
    else splitTok (c :: cur) rest

/-- Companion of `splitTok`: scanning while inside a whitespace run. -/
def splitWs (cur : List Char) : List Char → List (List Char)
  | [] => [cur.reverse, []]
  | c :: rest =>
    if c.isWhitespace then splitWs (c :: cur) rest
    else cur.reverse :: splitTok [c] rest

end

/-- JS `text.split(/(\s+)/)` as used by `Converter.splitTextIntoParts`. -/
def jsSplitWs (s : String) : List String :=
  (splitTok [] s.data).map (fun l => ⟨l⟩)

/-- One character of the JS class `[a-zA-Z0-9_-]`. -/
def mentionChar (c : Char) : Bool :=
  (('a' ≤ c && c ≤ 'z') || ('A' ≤ c && c ≤ 'Z') || ('0' ≤ c && c ≤ '9')
    || c = '_' || c = '-')

/-- `Converter.parseMentions`: the anchored match `^@([a-zA-Z0-9_-]+)$`. -/
def parseMentions (p : String) : Option ADFEntity :=
  match p.data with
  | '@' :: cs =>
    if !cs.isEmpty && cs.all mentionChar then
      some (.mk "mention" { id := some ⟨cs⟩, text := some p, accessLevel := some "CONTAINER" }
        none none none none)
    else none
  | _ => none

/-- The JS test `part.match(/^https?:\/\//)`. -/
def httpTest (p : String) : Bool :=
  hasPre "http://" p || hasPre "https://" p

/-- `Converter.parseInlineCard`: any string passing the `^https?:\/\/` test
becomes an inlineCard carrying the URL. -/
def parseInlineCard (p : String) : Option ADFEntity :=
  if httpTest p then some (.mk "inlineCard" { url := some p } none none none none)
  else none

/-- The capture of the anchored JS match `^\[(.*?)\]$`: the characters
between the leading `[` and the trailing `]`, provided none of them is a
newline (the dot does not match `\n`). -/
def statusInner (p : String) : Option String :=
  match p.data with
  | '[' :: rest =>
    match rest.reverse with
    | ']' :: revMid =>
      if revMid.all (fun c => !(c = '\n')) then some ⟨revMid.reverse⟩ else none
    | _ => none
  | _ => none

/-- `Converter.parseStatus`: a `[...]`-delimited token becomes a grey status
badge carrying the bracketed text. -/
def parseStatus (p : String) : Option ADFEntity :=
  (statusInner p).map (fun t =>
    ADFEntity.mk "status" { text := some t, color := some "grey" } none none none none)

/-- Split a character list at its first `}` (the lazy `(.*?)\}` step of the
panel regex). -/
def breakAtBrace : List Char → Option (List Char × List Char)
  | [] => none
  | c :: rest =>
    if c = '\x7d' then some ([], rest)
    else (breakAtBrace rest).map (fun x => (c :: x.1, x.2))

/-- The two captures of the anchored JS match
`^\{panel:title=(.*?)\}(.*?)\{panel\}$`: the literal prefix and suffix must
be present, the title runs to the first `}` after the prefix, the body is
the rest before the suffix, and neither capture may contain a newline. -/
def panelSplit (p : String) : Option (String × String) :=
  if hasPre "\x7bpanel:title=" p && hasSuf "\x7bpanel\x7d" p then
    let mid := (p.data.drop 13).take (p.data.length - 20)
    match breakAtBrace mid with
    | some (ttl, body) =>
      if ttl.all (fun c => !(c = '\n')) && body.all (fun c => !(c = '\n')) then
        some (⟨ttl⟩, ⟨body⟩)
      else none
    | none => none
  else none

/-- `Converter.parsePanel`: a `{panel:title=...}...{panel}` token becomes an
info panel whose paragraph holds the second capture (the title capture is
not used by the source). -/
def parsePanel (p : String) : Option ADFEntity :=
  (panelSplit p).map (fun x =>
    ADFEntity.mk "panel" { panelType := some "info" }
      (some [.mk "paragraph" {} (some [mkText x.2]) none none none]) none none none)

/-- The recognizer cascade of `Converter.splitTextIntoParts` for one
non-whitespace part, in source order: mentions (option-gated), inline cards
(option-gated), status, panel; the first producing a node wins. -/
def tryRecognizers (options : ConversionOptions) (p : String) : Option ADFEntity :=
  match (if options.parseMentions && hasPre "@" p then parseMentions p else none) with
  | some n => some n
  | none =>
    match (if options.parseInlineCards && httpTest p then parseInlineCard p else none) with
    | some n => some n
    | none =>
      match (if (statusInner p).isSome then parseStatus p else none) with
      | some n => some n
      | none =>
        match (if hasPre "\x7bpanel:" p then parsePanel p else none) with
        | some n => some n
        | none => none

/-- The body of the `for (const part of parts)` loop of
`Converter.splitTextIntoParts`: a part that trims to nothing is pushed as a
text node verbatim, otherwise the recognizer cascade runs and the part
falls back to a plain text node. -/
def resolvePart (options : ConversionOptions) (p : String) : ADFEntity :=
  if p.data.all Char.isWhitespace then mkText p
  else (tryRecognizers options p).getD (mkText p)

/-- `Converter.splitTextIntoParts`: split on whitespace runs (captured), and
append one node per part to the caller-supplied accumulator. -/
def splitTextIntoParts (text : String) (options : ConversionOptions)
    (existingContent : List ADFEntity) : List ADFEntity :=
  existingContent ++ (jsSplitWs text).map (resolvePart options)

/-- Does the checkbox regex `\[([ xX])\]\s+([^\n]*)` match at the head of
the character list?  On a match, return the state character, the greedy
`\s+`-then-`[^\n]*` capture, and the remainder. -/
def taskHead : List Char → Option (Char × List Char × List Char)
  | '[' :: c :: ']' :: w :: rest =>
    if (c = ' ' || c = 'x' || c = 'X') && w.isWhitespace then
      let afterWs := (w :: rest).dropWhile Char.isWhitespace
      some (c, afterWs.takeWhile (fun ch => !(ch = '\n')), afterWs.dropWhile (fun ch => !(ch = '\n')))
    else none
  | _ => none

/-- First match of the checkbox regex anywhere in the list: the text before
the match, the state character, the task-text capture, and the remainder
after the match (`regex.exec` semantics of the task loop in
`Converter.parseInlineContent`). -/
def taskFind : List Char → Option (List Char × Char × List Char × List Char)
  | [] => none
  | a :: rest =>
    match taskHead (a :: rest) with
    | some (c, t, r) => some ([], c, t, r)
    | none =>
      match taskFind rest with
      | some (b, c, t, r) => some (a :: b, c, t, r)
      | none => none

/-- The task node pushed for one checkbox match: the capture as text with an
`action` mark whose state lowercases the state character. -/
def taskNode (c : Char) (t : List Char) : ADFEntity :=
  .mk "text" {} none (some ⟨t⟩)
    (some [{ type := "action", state := some (if c = 'x' || c = 'X' then "done" else "todo") }])
    none

/-- The lazy `(.*?)\)` step of the image regex: capture up to the first `)`,
failing on a newline or the end of input. -/
def urlTake : List Char → Option (List Char × List Char)
  | [] => none
  | a :: rest =>
    if a = ')' then some ([], rest)
    else if a = '\n' then none
    else (urlTake rest).map (fun x => (a :: x.1, x.2))

/-- After the literal `![` of the image regex `!\[(.*?)\]\((.*?)\)`: scan
for a `](` whose URL capture closes, growing the (newline-free) alt capture
lazily. -/
def imgAfter : List Char → Option (List Char × List Char × List Char)
  | [] => none
  | ']' :: '(' :: rest2 =>
    (match urlTake rest2 with
     | some (u, r) => some ([], u, r)
     | none => (imgAfter ('(' :: rest2)).map (fun x => (']' :: x.1, x.2.1, x.2.2)))
  | a :: rest =>
    if a = '\n' then none
    else (imgAfter rest).map (fun x => (a :: x.1, x.2.1, x.2.2))

/-- First match of the image regex anywhere in the list: text before the
match, alt capture, url capture, and the remainder after the match. -/
def imgFind : List Char → Option (List Char × List Char × List Char × List Char)
  | [] => none
  | '!' :: '[' :: rest2 =>
    (match imgAfter rest2 with
     | some (alt, u, r) => some ([], alt, u, r)
     | none =>
       match imgFind ('[' :: rest2) with
       | some (b, alt, u, r) => some ('!' :: b, alt, u, r)
       | none => none)
  | a :: rest =>
    match imgFind rest with
    | some (b, alt, u, r) => some (a :: b, alt, u, r)
    | none => none

/-- The node pushed for one image match: a centered `mediaSingle` wrapping an
external `media` node (`alt` keeps the first capture, `url` the second). -/
def imageNode (alt url : List Char) : ADFEntity :=
  .mk "mediaSingle" { layout := some "center" }
    (some [.mk "media" { atype := some "external", url := some ⟨url⟩, alt := some ⟨alt⟩ }
      none none none none]) none none none

/-- A checkbox match at the head of the list consumes at least the `[c]` and
one whitespace character, so the remainder is strictly shorter. -/
theorem taskHead_length {l : List Char} {c t r} (h : taskHead l = some (c, t, r)) :
    r.length < l.length := by
  unfold taskHead at h
  split at h
  · rename_i c2 w rest
    split at h
    · simp only [Option.some.injEq, Prod.mk.injEq] at h
      obtain ⟨-, -, hr⟩ := h
      have h1 : ((((w :: rest).dropWhile Char.isWhitespace).dropWhile (fun ch => !(ch = '\n'))).length)
          ≤ ((w :: rest).dropWhile Char.isWhitespace).length :=
        (List.dropWhile_sublist _).length_le
      have h2 : ((w :: rest).dropWhile Char.isWhitespace).length ≤ (w :: rest).length :=
        (List.dropWhile_sublist _).length_le
      rw [← hr]
      simp only [List.length_cons] at h1 h2 ⊢
      omega
    · exact absurd h (by simp)
  · exact absurd h (by simp)

/-- The remainder after the first checkbox match is strictly shorter than
the scanned list (termination measure of the task loop). -/
theorem taskFind_length : ∀ {l : List Char} {b c t r},
    taskFind l = some (b, c, t, r) → r.length < l.length := by
  intro l
  induction l with
  | nil => intro b c t r h; simp [taskFind] at h
  | cons a rest ih =>
    intro b c t r h
    rw [taskFind] at h
    cases hh : taskHead (a :: rest) with
    | some x =>
      obtain ⟨c2, t2, r2⟩ := x
      rw [hh] at h
      simp only [Option.some.injEq, Prod.mk.injEq] at h
      obtain ⟨-, -, -, hr⟩ := h
      rw [← hr]
      exact taskHead_length hh
    | none =>
      rw [hh] at h
      cases hf : taskFind rest with
      | none => rw [hf] at h; simp at h
      | some y =>
        obtain ⟨b2, c2, t2, r2⟩ := y
        rw [hf] at h
        simp only [Option.some.injEq, Prod.mk.injEq] at h
        obtain ⟨-, -, -, hr⟩ := h
        rw [← hr]
        exact Nat.lt_trans (ih hf) (by simp)

/-- The remainder after a URL capture is strictly shorter than its input. -/
theorem urlTake_length : ∀ {l : List Char} {u r},
    urlTake l = some (u, r) → r.length < l.length := by
  intro l
  induction l with
  | nil => intro u r h; simp [urlTake] at h
  | cons a rest ih =>
    intro u r h
    rw [urlTake] at h
    split at h
    · have h2 := Option.some.inj h
      have h3 : rest = r := congrArg (fun x => x.2) h2
      rw [← h3]; simp
    · split at h
      · exact Option.noConfusion h
      · cases hu : urlTake rest with
        | none => rw [hu] at h; exact Option.noConfusion h
        | some y =>
          obtain ⟨u2, r2⟩ := y
          rw [hu] at h
          have h2 := Option.some.inj h
          have h3 : r2 = r := congrArg (fun x => x.2) h2
          rw [← h3]
          exact Nat.lt_trans (ih hu) (by simp)

/-- The remainder after the `](`-and-URL step is strictly shorter than its
input. -/
theorem imgAfter_length : ∀ {l : List Char} {alt u r},
    imgAfter l = some (alt, u, r) → r.length < l.length := by
  intro l
  induction l using imgAfter.induct with
  | case1 => intro alt u r h; rw [imgAfter.eq_1] at h; exact Option.noConfusion h
  | case2 rest2 ttl body hurl =>
    intro alt u r h
    rw [imgAfter.eq_2, hurl] at h
    have h2 := Option.some.inj h
    have h3 : body = r := congrArg (fun x => x.2.2) h2
    rw [← h3]
    have := urlTake_length hurl
    simp only [List.length_cons] at this ⊢
    omega
  | case3 rest2 hurl ih =>
    intro alt u r h
    rw [imgAfter.eq_2, hurl] at h
    cases hi : imgAfter ('(' :: rest2) with
    | none => rw [hi] at h; exact Option.noConfusion h
    | some y =>
      obtain ⟨a2, u2, r2⟩ := y
      rw [hi] at h
      have h2 := Option.some.inj h
      have h3 : r2 = r := congrArg (fun x => x.2.2) h2
      rw [← h3]
      exact Nat.lt_trans (ih hi) (by simp)
  | case4 rest himp =>
    intro alt u r h
    rw [imgAfter.eq_3 _ _ himp, if_pos rfl] at h
    exact Option.noConfusion h
  | case5 a rest himp hne ih =>
    intro alt u r h
    rw [imgAfter.eq_3 _ _ himp, if_neg hne] at h
    cases hi : imgAfter rest with
    | none => rw [hi] at h; exact Option.noConfusion h
    | some y =>
      obtain ⟨a2, u2, r2⟩ := y
      rw [hi] at h
      have h2 := Option.some.inj h
      have h3 : r2 = r := congrArg (fun x => x.2.2) h2
      rw [← h3]
      exact Nat.lt_trans (ih hi) (by simp)

/-- The remainder after the first image match is strictly shorter than the
scanned list (termination measure of the image loop). -/
theorem imgFind_length : ∀ {l : List Char} {b alt u r},
    imgFind l = some (b, alt, u, r) → r.length < l.length := by
  intro l
  induction l using imgFind.induct with
  | case1 => intro b alt u r h; rw [imgFind.eq_1] at h; exact Option.noConfusion h
  | case2 rest2 alt2 u2 r2 hia =>
    intro b alt u r h
    rw [imgFind.eq_2, hia] at h
    have h2 := Option.some.inj h
    have h3 : r2 = r := congrArg (fun x => x.2.2.2) h2
    rw [← h3]
    have := imgAfter_length hia
    simp only [List.length_cons] at this ⊢
    omega
  | case3 rest2 hia b2 alt2 u2 r2 hf ih =>
    intro b alt u r h
    rw [imgFind.eq_2, hia, hf] at h
    have h2 := Option.some.inj h
    have h3 : r2 = r := congrArg (fun x => x.2.2.2) h2
    rw [← h3]
    have := ih hf
    simp only [List.length_cons] at this ⊢
    omega
  | case4 rest2 hia hf ih =>
    intro b alt u r h
    rw [imgFind.eq_2, hia, hf] at h
    exact Option.noConfusion h
  | case5 a rest himp b2 alt2 u2 r2 hf ih =>
    intro b alt u r h
    rw [imgFind.eq_3 _ _ himp, hf] at h
    have h2 := Option.some.inj h
    have h3 : r2 = r := congrArg (fun x => x.2.2.2) h2
    rw [← h3]
    exact Nat.lt_trans (ih hf) (by simp)
  | case6 a rest himp hf ih =>
    intro b alt u r h
    rw [imgFind.eq_3 _ _ himp, hf] at h
    exact Option.noConfusion h

/-- The `while ((match = taskRegex.exec(text)))` loop of
`Converter.parseInlineContent`: text before each match is resolved through
`splitTextIntoParts`, the match becomes an `action`-marked text node, and
the text after the last match is resolved the same way. -/
def taskLoop (options : ConversionOptions) (l : List Char) : List ADFEntity :=
  match hf : taskFind l with
  | none => if l.isEmpty then [] else splitTextIntoParts ⟨l⟩ options []
  | some (before, c, t, r) =>
    (if before.isEmpty then [] else splitTextIntoParts ⟨before⟩ options []) ++
    taskNode c t :: taskLoop options r
termination_by l.length
decreasing_by exact taskFind_length hf

/-- The `while ((match = imgRegex.exec(text)))` loop of
`Converter.parseInlineContent`: like the task loop, with each image match
becoming a `mediaSingle` node. -/
def imageLoop (options : ConversionOptions) (l : List Char) : List ADFEntity :=
  match hf : imgFind l with
  | none => if l.isEmpty then [] else splitTextIntoParts ⟨l⟩ options []
  | some (before, alt, u, r) =>
    (if before.isEmpty then [] else splitTextIntoParts ⟨before⟩ options []) ++
    imageNode alt u :: imageLoop options r
termination_by l.length
decreasing_by exact imgFind_length hf

/-- `Converter.parseInlineContent`: the task-checkbox regex is tested first,
then the image regex, and only when neither matches does the span go
straight to `splitTextIntoParts`. -/
def parseInlineContent (text : String) (options : ConversionOptions) : List ADFEntity :=
  if (taskFind text.data).isSome then taskLoop options text.data
  else if (imgFind text.data).isSome then imageLoop options text.data
  else splitTextIntoParts text options []

/-- A part of the whitespace split is consumed (replaced by a non-text node)
exactly when it does not trim to nothing and one of the option-gated
recognizers of `Converter.splitTextIntoParts` fires on it. -/
def partConsumed (options : ConversionOptions) (p : String) : Bool :=
  !(p.data.all Char.isWhitespace) &&
  ((options.parseMentions && hasPre "@" p && (parseMentions p).isSome) ||
   (options.parseInlineCards && httpTest p && (parseInlineCard p).isSome) ||
   (statusInner p).isSome ||
   (hasPre "\x7bpanel:" p && (parsePanel p).isSome))

/-- Concatenation of the `text` fields of a node sequence, marks ignored
(nodes without a `text` field contribute nothing). -/
def concatTexts (ns : List ADFEntity) : String :=
  strConcat (ns.map (fun n => (n.textOf).getD ""))

/-- A text node carrying marks, as the serializer's `text` case reads it. -/
def mkMarkedText (t : String) (ms : List Mark) : ADFEntity :=
  .mk "text" {} none (some t) (some ms) none

/-- Modelled from the spec's words (for comparison with the code, not taken
from it): nested wrapping "from outermost-declared to innermost-declared",
i.e. the first-declared mark produces the outermost tag. -/
def specNestMarks (ms : List Mark) (inner : String) : String :=
  ms.foldr (fun m acc => applyMark acc m) inner

/-- The opening tag a wrapping mark contributes in the serializer. -/
def openTag (m : Mark) : String :=
  if m.type = "strong" then "<strong>"
  else if m.type = "em" then "<em>"
  else if m.type = "code" then "<code>"
  else if m.type = "link" then "<a href=\"" ++ jsOr m.href "#" ++ "\">"
  else if m.type = "strike" then "<s>"
  else if m.type = "underline" then "<u>"
  else if m.type = "textColor" then
    match m.color with
    | some col => if col = "" then "" else "<span style=\"color:" ++ col ++ "\">"
    | none => ""
  else if m.type = "subsup" then
    if m.stype = some "sub" then "<sub>" else "<sup>"
  else ""

/-- The closing tag a wrapping mark contributes in the serializer. -/
def closeTag (m : Mark) : String :=
  if m.type = "strong" then "</strong>"
  else if m.type = "em" then "</em>"
  else if m.type = "code" then "</code>"
  else if m.type = "link" then "</a>"
  else if m.type = "strike" then "</s>"
  else if m.type = "underline" then "</u>"
  else if m.type = "textColor" then
    match m.color with
    | some col => if col = "" then "" else "</span>"
    | none => ""
  else if m.type = "subsup" then
    if m.stype = some "sub" then "</sub>" else "</sup>"
  else ""

/-- Marks whose serializer case wraps the text in a tag pair (everything in
the switch; a `textColor` mark with a falsy color and unknown mark types
leave the text unchanged). -/
def wrapsTag (m : Mark) : Bool :=
  m.type = "strong" || m.type = "em" || m.type = "code" || m.type = "link"
    || m.type = "strike" || m.type = "underline"
    || (m.type = "textColor" && (match m.color with
        | some col => !(col = "")
        | none => false))
    || m.type = "subsup"

/-- Flattening the whitespace split returns the original characters: the
parts cover the input exactly. -/
theorem splitTok_splitWs_join : ∀ (l : List Char),
    (∀ cur, (splitTok cur l).flatten = cur.reverse ++ l) ∧
    (∀ cur, (splitWs cur l).flatten = cur.reverse ++ l) := by
  intro l
  induction l with
  | nil => constructor <;> intro cur <;> simp [splitTok, splitWs]
  | cons c rest ih =>
    constructor <;> intro cur
    · rw [splitTok]
      by_cases h : c.isWhitespace
      · rw [if_pos h, List.flatten_cons, ih.2]
        simp
      · rw [if_neg h, ih.1]
        simp
    · rw [splitWs]
      by_cases h : c.isWhitespace
      · rw [if_pos h, ih.2]
        simp
      · rw [if_neg h, List.flatten_cons, ih.1]
        simp

/-- Concatenating strings made from character lists is making a string from
the flattened lists. -/
theorem strConcat_map_mk : ∀ (ls : List (List Char)),
    strConcat (ls.map (fun l => (⟨l⟩ : String))) = ⟨ls.flatten⟩ := by
  intro ls
  induction ls with
  | nil => rfl
  | cons a rest ih =>
    simp only [List.map_cons, strConcat, ih, List.flatten_cons]
    rfl

/-- Concatenating the parts of the JS whitespace split reproduces the input
string byte for byte. -/
theorem jsSplitWs_concat (s : String) : strConcat (jsSplitWs s) = s := by
  unfold jsSplitWs
  rw [strConcat_map_mk, (splitTok_splitWs_join s.data).1]
  simp

/-- A part on which no recognizer fires is pushed as a plain text node
holding the part verbatim. -/
theorem resolvePart_unconsumed (options : ConversionOptions) (p : String)
    (h : partConsumed options p = false) : resolvePart options p = mkText p := by
  unfold partConsumed at h
  unfold resolvePart
  by_cases hws : p.data.all Char.isWhitespace
  · rw [if_pos hws]
  · rw [if_neg hws]
    rw [Bool.not_eq_true] at hws
    unfold tryRecognizers
    have e1 : (if options.parseMentions && hasPre "@" p then parseMentions p else none) = none := by
      by_cases g : options.parseMentions && hasPre "@" p
      · rw [if_pos g]
        rw [Bool.and_eq_true] at g
        cases hp : parseMentions p with
        | none => rfl
        | some x => simp [hws, g.1, g.2, hp] at h
      · rw [if_neg g]
    have e2 : (if options.parseInlineCards && httpTest p then parseInlineCard p else none) = none := by
      by_cases g : options.parseInlineCards && httpTest p
      · rw [if_pos g]
        rw [Bool.and_eq_true] at g
        cases hp : parseInlineCard p with
        | none => rfl
        | some x => simp [hws, g.1, g.2, hp] at h
      · rw [if_neg g]
    have e3 : (if (statusInner p).isSome then parseStatus p else none) = none := by
      by_cases g : (statusInner p).isSome
      · cases hp : statusInner p with
        | none => rw [hp] at g; simp at g
        | some x => simp [hws, hp] at h
      · rw [if_neg g]
    have e4 : (if hasPre "\x7bpanel:" p then parsePanel p else none) = none := by
      by_cases g : hasPre "\x7bpanel:" p
      · rw [if_pos g]
        cases hp : parsePanel p with
        | none => rfl
        | some x => simp [hws, g, hp] at h
      · rw [if_neg g]
    rw [e1, e2, e3, e4]
    rfl

/-- The serializer's output for a lone text node is the escaped text with
the marks folded over it in declaration order. -/
theorem processADFNodes_textNode (t : String) (ms : List Mark) :
    processADFNodes [mkMarkedText t ms] = applyMarks (escapeHtml t) ms := by
  unfold mkMarkedText
  rw [processADFNodes.eq_2, processADFNodes.eq_1, processNode.eq_2]
  rw [if_neg (by decide), if_pos rfl]
  simp

/-- Every wrapping mark contributes exactly its opening tag before and its
closing tag after the markup accumulated so far. -/
theorem applyMark_wraps (t : String) (m : Mark) (h : wrapsTag m = true) :
    applyMark t m = openTag m ++ t ++ closeTag m := by
  unfold wrapsTag at h
  simp only [Bool.or_eq_true, Bool.and_eq_true, decide_eq_true_eq] at h
  rcases h with ((((((h1 | h2) | h3) | h4) | h5) | h6) | ⟨h7a, h7b⟩) | h8
  · simp [applyMark, openTag, closeTag, h1]
  · simp [applyMark, openTag, closeTag, h2]
  · simp [applyMark, openTag, closeTag, h3]
  · simp [applyMark, openTag, closeTag, h4]
  · simp [applyMark, openTag, closeTag, h5]
  · simp [applyMark, openTag, closeTag, h6]
  · cases hc : m.color with
    | none => rw [hc] at h7b; simp at h7b
    | some col =>
      rw [hc] at h7b
      simp at h7b
      simp [applyMark, openTag, closeTag, h7a, hc, h7b]
  · by_cases hs : m.stype = some "sub"
    · simp [applyMark, openTag, closeTag, h8, hs]
    · simp [applyMark, openTag, closeTag, h8, hs]

set_option maxRecDepth 8192

/-- C1: for every input tree whose root node's type is not `doc`, the
validation step `validateADF` (called by `convertToADF`) throws an error
whose message says the document must have type `doc`, and the
validate-then-return tail of `convertToADF` propagates that error, so no
partial output is returned (an `Except.error` carries no tree). -/
theorem claim_C1 (adf : ADFEntity) (useOfficialSchema : Bool) (o : SchemaOracle)
    (h : adf.typeOf ≠ "doc") :
    validateADF adf useOfficialSchema o =
      .error "Invalid ADF: Document must have type \"doc\"" ∧
    (validateADF adf useOfficialSchema o >>= fun _ => Except.ok adf) =
      (.error "Invalid ADF: Document must have type \"doc\"" : Except String ADFEntity) := by
  have hb : (adf.typeOf != "doc") = true := bne_iff_ne.mpr h
  have h1 : validateADF adf useOfficialSchema o =
      .error "Invalid ADF: Document must have type \"doc\"" := by
    unfold validateADF
    rw [if_pos hb]
  exact ⟨h1, by rw [h1]; rfl⟩

/-- Witness for C1 at the root type `paragraph`. -/
theorem claim_C1_witness :
    (ADFEntity.mk "paragraph" {} (some []) none none none).typeOf ≠ "doc" ∧
    (validateADF (ADFEntity.mk "paragraph" {} (some []) none none none) false
        ⟨false, none, true, []⟩ =
      .error "Invalid ADF: Document must have type \"doc\"" ∧
    (validateADF (ADFEntity.mk "paragraph" {} (some []) none none none) false
        ⟨false, none, true, []⟩ >>= fun _ =>
          Except.ok (ADFEntity.mk "paragraph" {} (some []) none none none)) =
      (.error "Invalid ADF: Document must have type \"doc\"" : Except String ADFEntity)) :=
  ⟨by decide, claim_C1 _ _ _ (by decide)⟩

/-- C5: with `useMarkdownMacro` enabled, `convertToADF` returns (for any
non-empty source) the `createMarkdownMacroADF` document: a `doc` root whose
sole child is an `extension` node whose own sole child is a text leaf
holding the trimmed source; the result does not depend on the tokenizer
pipeline at all (no tokenization occurs). -/
theorem claim_C5 (buildNodes : String → ConversionOptions → List ADFEntity)
    (src : String) (options : ConversionOptions) (o : SchemaOracle)
    (hne : src ≠ "") (hm : options.useMarkdownMacro = true) :
    convertToADF buildNodes src options o = .ok (createMarkdownMacroADF src) ∧
    (∀ buildNodes2, convertToADF buildNodes2 src options o =
      convertToADF buildNodes src options o) ∧
    (createMarkdownMacroADF src).typeOf = "doc" ∧
    ((createMarkdownMacroADF src).contentOf.getD []).length = 1 ∧
    (childAt (createMarkdownMacroADF src) 0).map ADFEntity.typeOf = some "extension" ∧
    ((childAt (createMarkdownMacroADF src) 0).map
      (fun n => (n.contentOf.getD []).length)) = some 1 ∧
    (((childAt (createMarkdownMacroADF src) 0).bind (fun n => childAt n 0)).map
      ADFEntity.typeOf) = some "text" ∧
    (((childAt (createMarkdownMacroADF src) 0).bind (fun n => childAt n 0)).bind
      ADFEntity.textOf) = some (jsTrim src) := by
  have h1 : convertToADF buildNodes src options o = .ok (createMarkdownMacroADF src) := by
    unfold convertToADF
    rw [if_pos hm]
  refine ⟨h1, ?_, rfl, rfl, rfl, rfl, rfl, rfl⟩
  intro buildNodes2
  rw [h1]
  unfold convertToADF
  rw [if_pos hm]

/-- Witness for C5 at the source `"  # Title  "`. -/
theorem claim_C5_witness :
    ("  # Title  " : String) ≠ "" ∧
    ({ useMarkdownMacro := true } : ConversionOptions).useMarkdownMacro = true ∧
    (convertToADF (fun _ _ => []) "  # Title  " { useMarkdownMacro := true } ⟨false, none, true, []⟩ =
        .ok (createMarkdownMacroADF "  # Title  ") ∧
      (∀ buildNodes2, convertToADF buildNodes2 "  # Title  " { useMarkdownMacro := true }
          ⟨false, none, true, []⟩ =
        convertToADF (fun _ _ => []) "  # Title  " { useMarkdownMacro := true }
          ⟨false, none, true, []⟩) ∧
      (createMarkdownMacroADF "  # Title  ").typeOf = "doc" ∧
      ((createMarkdownMacroADF "  # Title  ").contentOf.getD []).length = 1 ∧
      (childAt (createMarkdownMacroADF "  # Title  ") 0).map ADFEntity.typeOf = some "extension" ∧
      ((childAt (createMarkdownMacroADF "  # Title  ") 0).map
        (fun n => (n.contentOf.getD []).length)) = some 1 ∧
      (((childAt (createMarkdownMacroADF "  # Title  ") 0).bind (fun n => childAt n 0)).map
        ADFEntity.typeOf) = some "text" ∧
      (((childAt (createMarkdownMacroADF "  # Title  ") 0).bind (fun n => childAt n 0)).bind
        ADFEntity.textOf) = some (jsTrim "  # Title  ")) :=
  ⟨by decide, rfl, claim_C5 _ _ _ _ (by decide) rfl⟩

/-- C6: when the underlying tabular parser rejects the (non-empty) input
with an error, `parseCsvToTable` resolves — it does not raise — with the
two-row diagnostic table: an `Error` tableHeader row and a tableCell row
carrying the parser's message. -/
theorem claim_C6 (content : String) (options : CsvOptions) (msg : String)
    (h : jsTrim content ≠ "") :
    parseCsvToTable content options (.failure msg) =
      .mk "table" {} (some [
        .mk "tableRow" {} (some [.mk "tableHeader" { colspan := some 1, rowspan := some 1 }
          (some [.mk "text" {} none (some "Error") none none]) none none none]) none none none,
        .mk "tableRow" {} (some [.mk "tableCell" { colspan := some 1, rowspan := some 1 }
          (some [.mk "text" {} none (some ("Could not parse CSV: " ++ msg)) none none])
          none none none]) none none none])
        none none none := by
  unfold parseCsvToTable
  rw [if_neg h]
  rfl

/-- Witness for C6 at a quote-mangled two-line input. -/
theorem claim_C6_witness :
    jsTrim "a,b\n\"" ≠ "" ∧
    parseCsvToTable "a,b\n\"" {} (.failure "Invalid Closing Quote") =
      .mk "table" {} (some [
        .mk "tableRow" {} (some [.mk "tableHeader" { colspan := some 1, rowspan := some 1 }
          (some [.mk "text" {} none (some "Error") none none]) none none none]) none none none,
        .mk "tableRow" {} (some [.mk "tableCell" { colspan := some 1, rowspan := some 1 }
          (some [.mk "text" {} none
            (some ("Could not parse CSV: " ++ "Invalid Closing Quote")) none none])
          none none none]) none none none])
        none none none :=
  ⟨by decide, claim_C6 _ _ _ (by decide)⟩

/-- C7: with official-schema validation requested, any failure of the
official attempt (schema unavailable, compile error, or a failed ajv
verdict) is downgraded to a logged warning: `validateADF` still returns
`true` for a `doc`-rooted tree, and `convertToADF` still returns the built
tree; only the local root-type invariant is fatal. -/
theorem claim_C7 (adf : ADFEntity) (o : SchemaOracle)
    (buildNodes : String → ConversionOptions → List ADFEntity)
    (markdown : String) (options : ConversionOptions)
    (hdoc : adf.typeOf = "doc") (hm : options.useMarkdownMacro = false)
    (hu : options.useOfficialSchema = true) :
    (officialAttempt o = .ok () → validateADF adf true o = .ok (true, [])) ∧
    (∀ msg, officialAttempt o = .error msg →
      validateADF adf true o =
        .ok (true, ["Official schema validation failed: " ++ msg])) ∧
    convertToADF buildNodes markdown options o =
      .ok (mkDocADF (buildNodes markdown options)) := by
  have hb : (adf.typeOf != "doc") = false := by rw [hdoc]; rfl
  refine ⟨?_, ?_, ?_⟩
  · intro hok
    unfold validateADF
    rw [if_neg (by simp [hb]), if_pos rfl, hok]
  · intro msg herr
    unfold validateADF
    rw [if_neg (by simp [hb]), if_pos rfl, herr]
  · have hv : ∃ ws, validateADF (mkDocADF (buildNodes markdown options)) true o =
        .ok (true, ws) := by
      unfold validateADF
      rw [if_neg (by
        simp [show ((mkDocADF (buildNodes markdown options)).typeOf != "doc") = false from rfl]),
        if_pos rfl]
      cases officialAttempt o
      · exact ⟨_, rfl⟩
      · exact ⟨_, rfl⟩
    obtain ⟨ws, hv⟩ := hv
    simp only [convertToADF, hm, Bool.false_eq_true, if_false, hu, hv]

/-- Witness for C7 with a failing official attempt (ajv rejects). -/
theorem claim_C7_witness :
    (ADFEntity.mk "doc" {} (some []) none none (some 1)).typeOf = "doc" ∧
    ({ useOfficialSchema := true } : ConversionOptions).useMarkdownMacro = false ∧
    ({ useOfficialSchema := true } : ConversionOptions).useOfficialSchema = true ∧
    ((officialAttempt ⟨true, none, false, ["/content must NOT have fewer than 1 items"]⟩ = .ok () →
      validateADF (ADFEntity.mk "doc" {} (some []) none none (some 1)) true
        ⟨true, none, false, ["/content must NOT have fewer than 1 items"]⟩ = .ok (true, [])) ∧
    (∀ msg, officialAttempt ⟨true, none, false, ["/content must NOT have fewer than 1 items"]⟩ =
        .error msg →
      validateADF (ADFEntity.mk "doc" {} (some []) none none (some 1)) true
        ⟨true, none, false, ["/content must NOT have fewer than 1 items"]⟩ =
        .ok (true, ["Official schema validation failed: " ++ msg])) ∧
    convertToADF (fun _ _ => []) "hello" { useOfficialSchema := true }
        ⟨true, none, false, ["/content must NOT have fewer than 1 items"]⟩ =
      .ok (mkDocADF ((fun _ _ => ([] : List ADFEntity)) "hello"
        ({ useOfficialSchema := true } : ConversionOptions)))) :=
  ⟨rfl, rfl, rfl, claim_C7 _ _ _ _ _ rfl rfl rfl⟩

/-- C10: the storage serializer's entry point does not throw on a root that
is not `doc` or has no content array: it returns the fixed placeholder
string (the model's `content` is `Option`-typed, so "absent" covers the
JS non-array case). -/
theorem claim_C10 (adf : ADFEntity)
    (h : adf.typeOf ≠ "doc" ∨ adf.contentOf = none) :
    convertADFToStorage adf = "<p>Invalid ADF document structure</p>" := by
  unfold convertADFToStorage
  rcases h with h | h
  · rw [if_pos (by simp [bne_iff_ne, h])]
  · rw [if_pos (by simp [h])]

/-- Witness for C10 at a `paragraph` root. -/
theorem claim_C10_witness :
    ((ADFEntity.mk "paragraph" {} (some []) none none none).typeOf ≠ "doc" ∨
      (ADFEntity.mk "paragraph" {} (some []) none none none).contentOf = none) ∧
    convertADFToStorage (ADFEntity.mk "paragraph" {} (some []) none none none) =
      "<p>Invalid ADF document structure</p>" :=
  ⟨Or.inl (by decide), claim_C10 _ (Or.inl (by decide))⟩

/-- C2 fails on the code: with marks `[strong, em]` on text `"x"`, the
serializer emits `<em><strong>x</strong></em>` — the LAST-declared mark is
the outermost tag — whereas nesting from outermost-declared to
innermost-declared (`specNestMarks`) would give
`<strong><em>x</em></strong>`. -/
theorem claim_C2_cex :
    processADFNodes [mkMarkedText "x" [{ type := "strong" }, { type := "em" }]] =
      "<em><strong>x</strong></em>" ∧
    specNestMarks [{ type := "strong" }, { type := "em" }] (escapeHtml "x") =
      "<strong><em>x</em></strong>" ∧
    processADFNodes [mkMarkedText "x" [{ type := "strong" }, { type := "em" }]] ≠
      specNestMarks [{ type := "strong" }, { type := "em" }] (escapeHtml "x") := by
  refine ⟨by decide, by decide, by decide⟩

/-- C2 (amended): for a text node the serializer folds the declared marks
left to right over the escaped text, so the FIRST-declared mark is applied
first (innermost) and appending a wrapping mark at the END of the list
wraps the whole previous output in that mark's tags (outermost); the
serializer is a pure function, so serializing the same tree twice is
byte-identical. -/
theorem claim_C2 (t : String) (ms : List Mark) (m : Mark) (h : wrapsTag m = true) :
    processADFNodes [mkMarkedText t (ms ++ [m])] =
      openTag m ++ processADFNodes [mkMarkedText t ms] ++ closeTag m ∧
    processADFNodes [mkMarkedText t (m :: ms)] =
      ms.foldl applyMark (applyMark (escapeHtml t) m) ∧
    processADFNodes [mkMarkedText t ms] = processADFNodes [mkMarkedText t ms] := by
  refine ⟨?_, ?_, rfl⟩
  · rw [processADFNodes_textNode, processADFNodes_textNode]
    unfold applyMarks
    rw [List.foldl_append]
    simp only [List.foldl_cons, List.foldl_nil]
    exact applyMark_wraps _ _ h
  · rw [processADFNodes_textNode]
    unfold applyMarks
    rfl

/-- Witness for C2 (amended) at text `"x"`, marks `[strong]`, appended mark
`em`. -/
theorem claim_C2_witness :
    wrapsTag ({ type := "em" } : Mark) = true ∧
    (processADFNodes [mkMarkedText "x" ([{ type := "strong" }] ++ [{ type := "em" }])] =
      openTag { type := "em" } ++ processADFNodes [mkMarkedText "x" [{ type := "strong" }]]
        ++ closeTag { type := "em" } ∧
    processADFNodes [mkMarkedText "x" ({ type := "em" } :: [{ type := "strong" }])] =
      [({ type := "strong" } : Mark)].foldl applyMark
        (applyMark (escapeHtml "x") { type := "em" }) ∧
    processADFNodes [mkMarkedText "x" [{ type := "strong" }]] =
      processADFNodes [mkMarkedText "x" [{ type := "strong" }]]) :=
  ⟨by decide, claim_C2 "x" [{ type := "strong" }] { type := "em" } (by decide)⟩

/-- C3: a codeBlock with language `javascript` containing
`console.log("x")` serializes to a `code` structured-macro carrying a
`language` parameter equal to `javascript`, with the double quotes
HTML-escaped to `&quot;` in the emitted markup. -/
theorem claim_C3 :
    processADFNodes [ADFEntity.mk "codeBlock" { language := some "javascript" }
      (some [ADFEntity.mk "text" {} none (some "console.log(\"x\")") none none])
      none none none] =
      "<ac:structured-macro ac:name=\"code\"><ac:parameter ac:name=\"language\">javascript</ac:parameter><ac:plain-text-body><![CDATA[console.log(&quot;x&quot;)]]></ac:plain-text-body></ac:structured-macro>" := by
  decide

/-- C4 fails on the code: a codeBlock with the diagram language `mermaid`
is serialized through the same `code` structured-macro branch as any other
language — there is no raw-markup (`markdown`) macro branch in
`processADFNodes`, although the repository's own tests expect one. -/
theorem claim_C4_eval :
    processADFNodes [ADFEntity.mk "codeBlock" { language := some "mermaid" }
      (some [ADFEntity.mk "text" {} none (some "graph TD;\nA-->B;") none none])
      none none none] =
      "<ac:structured-macro ac:name=\"code\"><ac:parameter ac:name=\"language\">mermaid</ac:parameter><ac:plain-text-body><![CDATA[graph TD;\nA--&gt;B;]]></ac:plain-text-body></ac:structured-macro>" := by
  decide

/-- C9 fails on the code: an `extension` node whose `extensionType` is not
the macro-core identifier produces NO output at all — its children are not
rendered (the `default` branch that renders children applies only to node
types without their own case, and `extension` has one). -/
theorem claim_C9_cex :
    processADFNodes [ADFEntity.mk "extension"
      { extensionType := some "com.example.other", extensionKey := some "widget" }
      (some [ADFEntity.mk "paragraph" {}
        (some [ADFEntity.mk "text" {} none (some "hi") none none]) none none none])
      none none none] = "" ∧
    processADFNodes [ADFEntity.mk "paragraph" {}
      (some [ADFEntity.mk "text" {} none (some "hi") none none]) none none none] =
      "<p>hi</p>" ∧
    ("" : String) ≠ "<p>hi</p>" := by
  refine ⟨by decide, by decide, by decide⟩

/-- C9 (amended): for every extension node whose `extensionType` does not
match the macro-core identifier, the serializer emits nothing at all for
that node: no structured-macro wrapper and no rendering of its children. -/
theorem claim_C9 (a : Attrs) (c : Option (List ADFEntity)) (txt : Option String)
    (mks : Option (List Mark)) (v : Option Nat)
    (h : a.extensionType ≠ some "com.atlassian.confluence.macro.core") :
    processADFNodes [ADFEntity.mk "extension" a c txt mks v] = "" := by
  cases c with
  | none =>
    rw [processADFNodes.eq_2, processADFNodes.eq_1, processNode.eq_2]
    rw [if_neg (by decide), if_neg (by decide), if_neg (by decide), if_neg (by decide),
      if_neg (by decide), if_neg (by decide), if_neg (by decide), if_neg (by decide),
      if_neg (by decide), if_neg (by decide), if_neg (by decide), if_neg (by decide),
      if_neg (by decide), if_neg (by decide), if_neg (by decide), if_neg (by decide),
      if_neg (by decide), if_neg (by decide), if_neg (by decide), if_pos rfl, if_neg h]
    rfl
  | some l =>
    rw [processADFNodes.eq_2, processADFNodes.eq_1, processNode.eq_1]
    rw [if_neg (by decide), if_neg (by decide), if_neg (by decide), if_neg (by decide),
      if_neg (by decide), if_neg (by decide), if_neg (by decide), if_neg (by decide),
      if_neg (by decide), if_neg (by decide), if_neg (by decide), if_neg (by decide),
      if_neg (by decide), if_neg (by decide), if_neg (by decide), if_neg (by decide),
      if_neg (by decide), if_neg (by decide), if_neg (by decide), if_pos rfl, if_neg h]
    rfl

/-- Witness for C9 (amended) at a non-core extension node with a child. -/
theorem claim_C9_witness :
    ({ extensionType := some "com.example.other", extensionKey := some "widget" } : Attrs).extensionType ≠
      some "com.atlassian.confluence.macro.core" ∧
    processADFNodes [ADFEntity.mk "extension"
      { extensionType := some "com.example.other", extensionKey := some "widget" }
      (some [ADFEntity.mk "paragraph" {}
        (some [ADFEntity.mk "text" {} none (some "hi") none none]) none none none])
      none none none] = "" :=
  ⟨by decide, claim_C9 _ _ _ _ _ (by decide)⟩

/-- C8: the inline content resolver covers its input span exactly — on any
span where no recognizer fires (no task checkbox, no image, and every
whitespace-split part unconsumed), the emitted nodes are exactly one text
node per part, whitespace runs standing as their own text nodes, and
concatenating the `text` fields of the emitted nodes (marks ignored)
reproduces the input byte for byte. -/
theorem claim_C8 (text : String) (options : ConversionOptions)
    (htask : (taskFind text.data).isSome = false)
    (himg : (imgFind text.data).isSome = false)
    (hparts : ∀ p ∈ jsSplitWs text, partConsumed options p = false) :
    parseInlineContent text options = (jsSplitWs text).map mkText ∧
    concatTexts (parseInlineContent text options) = text := by
  have h1 : parseInlineContent text options = splitTextIntoParts text options [] := by
    unfold parseInlineContent
    rw [if_neg (by simp [htask]), if_neg (by simp [himg])]
  have h2 : splitTextIntoParts text options [] = (jsSplitWs text).map (resolvePart options) := by
    unfold splitTextIntoParts
    simp
  have h3 : (jsSplitWs text).map (resolvePart options) = (jsSplitWs text).map mkText :=
    List.map_congr_left (fun p hp => resolvePart_unconsumed options p (hparts p hp))
  have h4 : concatTexts ((jsSplitWs text).map mkText) = strConcat (jsSplitWs text) := by
    unfold concatTexts
    rw [List.map_map]
    have hc : ((fun n => (ADFEntity.textOf n).getD "") ∘ mkText) = fun p => p := by
      funext p
      rfl
    rw [hc, List.map_id']
  refine ⟨(h1.trans h2).trans h3, ?_⟩
  rw [h1, h2, h3, h4, jsSplitWs_concat]

/-- Witness for C8 at the span `"hello  world"` with mentions and inline
cards enabled. -/
theorem claim_C8_witness :
    (taskFind ("hello  world" : String).data).isSome = false ∧
    (imgFind ("hello  world" : String).data).isSome = false ∧
    (∀ p ∈ jsSplitWs "hello  world",
      partConsumed { parseMentions := true, parseInlineCards := true } p = false) ∧
    (parseInlineContent "hello  world" { parseMentions := true, parseInlineCards := true } =
      (jsSplitWs "hello  world").map mkText ∧
    concatTexts (parseInlineContent "hello  world"
      { parseMentions := true, parseInlineCards := true }) = "hello  world") :=
  ⟨by decide, by decide, by decide,
    claim_C8 _ _ (by decide) (by decide) (by decide)⟩
